import Mathlib

/-!
Shallow embedding of the upload middleware of npm-storage-package
(src/src/middleware.ts, function createStorageUploadMiddleware), together
with proofs about the behaviour the specification describes.

Modelling conventions:
* Machine-level JS values are rendered with plain Lean data: a JS string is
  a Lean String, a byte count is a Nat, an absent (undefined) property is an
  Option that is none.  A JS falsy check on a string property (such as
  file.path or file.filename) is rendered as a comparison with the empty
  string, since undefined properties of FileUpload are rendered as empty
  strings and the only other falsy string is the empty one.
* The filesystem visible through fs.existsSync / fs.unlinkSync is a list of
  the paths that currently exist; unlinking removes a path, existsSync is
  membership.
* The provider backend reached through storageAction(provider, "upload",
  config, args) is abstracted as a function from the argument record to
  Except String String: an ok result is the resolved upload URL, an error
  is a rejected promise (a thrown error).  The provider tag and the
  StorageConfig only parametrise that external call, so they are folded
  into the backend function itself.
* Date.now() is passed in as a Nat parameter.
* The async control flow of the middleware body is sequentialised: the
  fan-out of Promise.all over the per-file closures in the multiple-files
  path runs the closures in start (array) order and Promise.all surfaces
  the first rejection in that order while preserving fulfillment order,
  matching the deterministic guarantees of Promise.all.
-/

/-- One uploaded file as produced by the upstream multipart layer
(interface FileUpload in middleware.ts).  The optional buffer property is
omitted: the middleware never reads it. -/
structure FileUpload where
  fieldname : String
  originalname : String
  encoding : String
  mimetype : String
  size : Nat
  destination : String
  filename : String
  path : String
  deriving Repr, DecidableEq

/-- A value stored under one key of req.uploadedFiles: the middleware
stores either a single URL string or an array of URL strings. -/
inductive UploadValue where
  | str (s : String)
  | arr (l : List String)
  deriving Repr, DecidableEq

/-- req.uploadedFiles, an insertion-ordered JS object from field name to
stored value. -/
abbrev UploadedFiles := List (String × UploadValue)

/-- The value of req.files for one field name when req.files is the
field-keyed object produced by multer .fields(): either a single file or
an array of files (the middleware handles both through Array.isArray). -/
inductive FieldEntry where
  | one (f : FileUpload)
  | many (l : List FileUpload)

/-- The req.files property.  The declared RequestLike type allows a single
file or an array; the multi-field path additionally reads it as a
field-keyed object (req.files as any), rendered by the byField shape. -/
inductive ReqFiles where
  | absent
  | one (f : FileUpload)
  | many (l : List FileUpload)
  | byField (m : List (String × FieldEntry))

/-- The request object threaded through the middleware (interface
RequestLike in middleware.ts). -/
structure RequestLike where
  file : Option FileUpload
  files : ReqFiles
  uploadedFiles : Option UploadedFiles

/-- options.limits. -/
structure Limits where
  fileSize : Option Nat
  files : Option Nat

/-- One entry of options.fields. -/
structure FieldConfig where
  fieldName : String
  maxCount : Option Nat
  fileFilter : Option (RequestLike → FileUpload → Bool)
  generateFileName : Option (RequestLike → FileUpload → String)
  folder : Option String

/-- StorageMiddlewareOptions, minus provider and config, which only
parametrise the abstracted backend call. -/
structure StorageMiddlewareOptions where
  fieldName : Option String
  multiple : Option Bool
  fileFilter : Option (RequestLike → FileUpload → Bool)
  limits : Option Limits
  generateFileName : Option (RequestLike → FileUpload → String)
  fields : Option (List FieldConfig)

/-- The argument record of one storageAction(provider, "upload", config,
args) call. -/
structure UploadCall where
  fileName : String
  filePath : String
  mimeType : String
  deriving Repr, DecidableEq

/-- The abstracted backend: ok is the resolved upload URL, error is a
rejected promise. -/
abbrev Backend := UploadCall → Except String String

/-- The filesystem: the list of paths that currently exist on disk. -/
abbrev Fs := List String

/-- fs.existsSync. -/
def existsSync (fs : Fs) (p : String) : Bool :=
  decide (p ∈ fs)

/-- fs.unlinkSync. -/
def unlinkSync (fs : Fs) (p : String) : Fs :=
  fs.filter (fun q => decide (q ≠ p))

/-- The cleanup step the middleware repeats at every release site:
if (file.path && fs.existsSync(file.path)) fs.unlinkSync(file.path). -/
def cleanupTemp (fs : Fs) (f : FileUpload) : Fs :=
  if decide (f.path ≠ "") && existsSync fs f.path then unlinkSync fs f.path else fs

/-- Sequential cleanup of a list of files (the forEach sweeps in the catch
block). -/
def cleanupAll (fs : Fs) (l : List FileUpload) : Fs :=
  l.foldl cleanupTemp fs

/-- The guard fieldConfig.fileFilter && !fieldConfig.fileFilter(req, file)
(and likewise fileFilter && !fileFilter(req, file) in the single path):
true when a configured filter rejects the file. -/
def rejectsFile (flt : Option (RequestLike → FileUpload → Bool))
    (req : RequestLike) (f : FileUpload) : Bool :=
  match flt with
  | some φ => !(φ req f)
  | none => false

/-- file.filename || file.originalname. -/
def defaultFileName (f : FileUpload) : String :=
  if f.filename ≠ "" then f.filename else f.originalname

/-- The filename computation of the multi-field path (middleware.ts lines
83-91): generateFileName if configured, else the folder template
`${folder}/${Date.now()}-${file.originalname}` when folder is truthy, else
file.filename || file.originalname. -/
def fieldFileName (fc : FieldConfig) (now : Nat) (req : RequestLike)
    (f : FileUpload) : String :=
  match fc.generateFileName with
  | some g => g req f
  | none =>
    match fc.folder with
    | some d =>
      if d ≠ "" then d ++ "/" ++ toString now ++ "-" ++ f.originalname
      else defaultFileName f
    | none => defaultFileName f

/-- The storageAction upload argument record built in the multi-field
path. -/
def fieldCall (fc : FieldConfig) (now : Nat) (req : RequestLike)
    (f : FileUpload) : UploadCall :=
  ⟨fieldFileName fc now req f, f.path, f.mimetype⟩

/-- The filename computation shared by the single and multiple paths:
generateFileName if configured, else file.filename || file.originalname. -/
def closureFileName (gen : Option (RequestLike → FileUpload → String))
    (req : RequestLike) (f : FileUpload) : String :=
  match gen with
  | some g => g req f
  | none => defaultFileName f

/-- The storageAction upload argument record built in the single and
multiple paths. -/
def closureCall (gen : Option (RequestLike → FileUpload → String))
    (req : RequestLike) (f : FileUpload) : UploadCall :=
  ⟨closureFileName gen req f, f.path, f.mimetype⟩

/-- The numeric value behind limits?.fileSize, with 0 for absent (both are
falsy, so the size check is disabled in both cases). -/
def fileSizeLimit (limits : Option Limits) : Nat :=
  match limits with
  | some l => l.fileSize.getD 0
  | none => 0

/-- The guard limits?.fileSize && file.size > limits.fileSize. -/
def sizeExceeded (limits : Option Limits) (size : Nat) : Bool :=
  decide (0 < fileSizeLimit limits) && decide (fileSizeLimit limits < size)

/-- The numeric value behind limits?.files, with 0 for absent. -/
def filesLimit (limits : Option Limits) : Nat :=
  match limits with
  | some l => l.files.getD 0
  | none => 0

/-- The guard limits?.files && filteredFiles.length > limits.files. -/
def tooManyFiles (limits : Option Limits) (count : Nat) : Bool :=
  decide (0 < filesLimit limits) && decide (filesLimit limits < count)

/-- The single-path size error message. -/
def sizeErrorSingle (limits : Option Limits) : String :=
  "File exceeds size limit of " ++ toString (fileSizeLimit limits) ++ " bytes"

/-- The multiple-path per-file size error message. -/
def sizeErrorMulti (limits : Option Limits) (f : FileUpload) : String :=
  "File " ++ f.originalname ++ " exceeds size limit of "
    ++ toString (fileSizeLimit limits) ++ " bytes"

/-- The file-count error message. -/
def tooManyError (limits : Option Limits) : String :=
  "Too many files. Maximum " ++ toString (filesLimit limits) ++ " allowed."

/-- Array.isArray(fieldFiles) ? fieldFiles : [fieldFiles]. -/
def FieldEntry.toList : FieldEntry → List FileUpload
  | .one f => [f]
  | .many l => l

/-- Association-list lookup for the field-keyed req.files object. -/
def lookupEntry : List (String × FieldEntry) → String → Option FieldEntry
  | [], _ => none
  | (k, e) :: rest, k₂ => if k = k₂ then some e else lookupEntry rest k₂

/-- files?.[fieldConfig.fieldName]: property access succeeds only on the
field-keyed object shape; on the other shapes the property is undefined. -/
def filesForField : ReqFiles → String → Option FieldEntry
  | .byField m, k => lookupEntry m k
  | _, _ => none

/-- The list of files of one field as seen by both the multi-field loop
(continue when the entry is absent) and the catch sweep
(fieldFiles ? [fieldFiles] : []). -/
def entryFiles (rf : ReqFiles) (k : String) : List FileUpload :=
  match filesForField rf k with
  | some e => e.toList
  | none => []

/-- Array.isArray(req.files) ? req.files : req.files ? [req.files] : [],
under the declared RequestLike type (a single file or an array).  The
field-keyed shape never reaches this expression under the declared types
(only the multi-field path casts req.files to any), so it is rendered as
the empty list. -/
def reqFilesList : ReqFiles → List FileUpload
  | .many l => l
  | .one f => [f]
  | _ => []

/-- Lookup in req.uploadedFiles. -/
def lookupField : UploadedFiles → String → Option UploadValue
  | [], _ => none
  | (k, v) :: rest, k₂ => if k = k₂ then some v else lookupField rest k₂

/-- JS object property assignment: an existing key keeps its position and
gets the new value, a new key is appended. -/
def setField : UploadedFiles → String → UploadValue → UploadedFiles
  | [], k, v => [(k, v)]
  | (k₂, w) :: rest, k, v =>
    if k₂ = k then (k, v) :: rest else (k₂, w) :: setField rest k v

/-- req.uploadedFiles[name] = value (after the initialisation at the top
of the middleware req.uploadedFiles is always an object). -/
def setUploaded (req : RequestLike) (k : String) (v : UploadValue) : RequestLike :=
  { req with uploadedFiles := some (setField (req.uploadedFiles.getD []) k v) }

/-- The mutable state the middleware body threads: the request, the
filesystem, and the trace of backend upload calls issued so far. -/
structure MWState where
  req : RequestLike
  fs : Fs
  calls : List UploadCall

/-- How the try block of the middleware body terminates: reaching next(),
an early return next(error), or a thrown error (a rejected await) that the
catch block receives. -/
inductive BodyOutcome where
  | ok
  | early (e : String)
  | thrown (e : String)
  deriving Repr, DecidableEq

/-- The value stored for one field of the multi-field path (middleware.ts
lines 108-113): a scalar when maxCount === 1 or exactly one URL was
collected (uploadedUrls[0] || ""), otherwise the array. -/
def storeValue (maxCount : Option Nat) (urls : List String) : UploadValue :=
  if maxCount == some 1 || urls.length == 1 then .str (urls.headD "")
  else .arr urls

/-- The per-file loop of the multi-field path (middleware.ts lines
73-106): filter with individual cleanup and continue on rejection, else
compute the filename, issue the backend upload (recorded in the call
trace), propagate a rejected upload as a thrown error, and clean up the
temp file after a successful upload. -/
def processFieldFiles (backend : Backend) (now : Nat) (fc : FieldConfig) :
    List FileUpload → List String → MWState →
    Except (String × MWState) (List String × MWState)
  | [], urls, st => .ok (urls, st)
  | f :: rest, urls, st =>
    if rejectsFile fc.fileFilter st.req f then
      processFieldFiles backend now fc rest urls
        { st with fs := cleanupTemp st.fs f }
    else
      let call := fieldCall fc now st.req f
      let st₁ : MWState := { st with calls := st.calls ++ [call] }
      match backend call with
      | .error e => .error (e, st₁)
      | .ok url =>
        processFieldFiles backend now fc rest (urls ++ [url])
          { st₁ with fs := cleanupTemp st₁.fs f }

/-- One iteration of the for loop over options.fields: continue when the
field has no entry in req.files, else process its files and store the
URL(s) under the field name. -/
def processField (backend : Backend) (now : Nat) (fc : FieldConfig)
    (st : MWState) : Except (String × MWState) MWState :=
  match filesForField st.req.files fc.fieldName with
  | none => .ok st
  | some entry =>
    match processFieldFiles backend now fc entry.toList [] st with
    | .error es => .error es
    | .ok (urls, st₁) =>
      .ok { st₁ with
            req := setUploaded st₁.req fc.fieldName (storeValue fc.maxCount urls) }

/-- The for loop over options.fields. -/
def processFields (backend : Backend) (now : Nat) :
    List FieldConfig → MWState → Except (String × MWState) MWState
  | [], st => .ok st
  | fc :: rest, st =>
    match processField backend now fc st with
    | .error es => .error es
    | .ok st₁ => processFields backend now rest st₁

/-- The async closure mapped over filteredFiles in the multiple path
(middleware.ts lines 139-164), run sequentially in start order: an
oversize file rejects its promise before any backend call; otherwise the
upload is issued and, on success, the temp file is cleaned up.  A rejected
upload leaves its temp file in place.  Later closures still run after an
earlier rejection, as all promises are started before Promise.all is
awaited. -/
def runClosures (backend : Backend)
    (gen : Option (RequestLike → FileUpload → String)) (limits : Option Limits)
    (req : RequestLike) :
    List FileUpload → Fs → List UploadCall →
    List (Except String String) × Fs × List UploadCall
  | [], fs, calls => ([], fs, calls)
  | f :: rest, fs, calls =>
    if sizeExceeded limits f.size then
      let r := runClosures backend gen limits req rest fs calls
      (.error (sizeErrorMulti limits f) :: r.1, r.2)
    else
      let call := closureCall gen req f
      match backend call with
      | .error e =>
        let r := runClosures backend gen limits req rest fs (calls ++ [call])
        (.error e :: r.1, r.2)
      | .ok url =>
        let r := runClosures backend gen limits req rest (cleanupTemp fs f) (calls ++ [call])
        (.ok url :: r.1, r.2)

/-- Promise.all over the settled closure results: the list of fulfillment
values in start order, or the first rejection in that order. -/
def promiseAll : List (Except String String) → Except String (List String)
  | [] => .ok []
  | .error e :: _ => .error e
  | .ok s :: rest =>
    match promiseAll rest with
    | .error e => .error e
    | .ok l => .ok (s :: l)

/-- The filtered file list of the multiple path:
fileFilter ? files.filter((file) => fileFilter(req, file)) : files. -/
def filteredList (opts : StorageMiddlewareOptions) (req : RequestLike) :
    List FileUpload :=
  match opts.fileFilter with
  | some φ => (reqFilesList req.files).filter (fun f => φ req f)
  | none => reqFilesList req.files

/-- The tail of the multiple path after the count check: run the per-file
closures, await Promise.all, and on success assign the URL array to
req.uploadedFiles[fieldName]. -/
def multiUpload (opts : StorageMiddlewareOptions) (backend : Backend)
    (st : MWState) (filtered : List FileUpload) : BodyOutcome × MWState :=
  match runClosures backend opts.generateFileName opts.limits st.req filtered
      st.fs st.calls with
  | (results, fs₁, calls₁) =>
    match promiseAll results with
    | .error e => (.thrown e, ⟨st.req, fs₁, calls₁⟩)
    | .ok urls =>
      (.ok, ⟨setUploaded st.req (opts.fieldName.getD "file") (.arr urls), fs₁, calls₁⟩)

/-- The multiple path (middleware.ts lines 125-167): skip when no files,
filter, reject on the count limit, else upload. -/
def runMultipleBody (opts : StorageMiddlewareOptions) (backend : Backend)
    (st : MWState) : BodyOutcome × MWState :=
  if 0 < (reqFilesList st.req.files).length then
    if tooManyFiles opts.limits (filteredList opts st.req).length then
      (.early (tooManyError opts.limits), st)
    else
      multiUpload opts backend st (filteredList opts st.req)
  else (.ok, st)

/-- The successful upload tail of the single path: issue the backend call,
clean up the temp file and store the URL on success, propagate a rejected
upload as thrown. -/
def singleUpload (opts : StorageMiddlewareOptions) (backend : Backend)
    (st : MWState) (f : FileUpload) : BodyOutcome × MWState :=
  match backend (closureCall opts.generateFileName st.req f) with
  | .error e =>
    (.thrown e, ⟨st.req, st.fs, st.calls ++ [closureCall opts.generateFileName st.req f]⟩)
  | .ok url =>
    (.ok, ⟨setUploaded st.req (opts.fieldName.getD "file") (.str url),
           cleanupTemp st.fs f, st.calls ++ [closureCall opts.generateFileName st.req f]⟩)

/-- The single path (middleware.ts lines 168-199): skip when req.file is
absent; a filter rejection or a size violation returns next(error) without
any cleanup; otherwise upload. -/
def runSingleBody (opts : StorageMiddlewareOptions) (backend : Backend)
    (st : MWState) : BodyOutcome × MWState :=
  match st.req.file with
  | none => (.ok, st)
  | some f =>
    if rejectsFile opts.fileFilter st.req f then
      (.early "File type not allowed", st)
    else if sizeExceeded opts.limits f.size then
      (.early (sizeErrorSingle opts.limits), st)
    else singleUpload opts backend st f

/-- The else branch of the body: multiple or single according to
options.multiple (default false). -/
def singleOrMultipleBody (opts : StorageMiddlewareOptions) (backend : Backend)
    (st : MWState) : BodyOutcome × MWState :=
  if opts.multiple.getD false then runMultipleBody opts backend st
  else runSingleBody opts backend st

/-- The try block of the middleware: the multi-field loop runs only when
options.fields is present AND nonempty (options.fields &&
options.fields.length > 0); a rejected upload inside it surfaces as
thrown. -/
def runBody (opts : StorageMiddlewareOptions) (backend : Backend) (now : Nat)
    (st : MWState) : BodyOutcome × MWState :=
  match opts.fields with
  | some (fc :: rest) =>
    (match processFields backend now (fc :: rest) st with
     | .ok st₁ => (.ok, st₁)
     | .error (e, st₁) => (.thrown e, st₁))
  | _ => singleOrMultipleBody opts backend st

/-- The sweep of the catch block for the multi-field configuration:
forEach over options.fields, cleaning every file of every configured
field. -/
def sweepFields (req : RequestLike) (fs : Fs) : List FieldConfig → Fs
  | [] => fs
  | fc :: rest =>
    sweepFields req (cleanupAll fs (entryFiles req.files fc.fieldName)) rest

/-- The catch block cleanup (middleware.ts lines 203-237).  Note the guard
here is if (options.fields) alone: present-but-empty options.fields takes
this branch even though the body took the single/multiple branch. -/
def catchCleanup (opts : StorageMiddlewareOptions) (req : RequestLike)
    (fs : Fs) : Fs :=
  match opts.fields with
  | some fcs => sweepFields req fs fcs
  | none =>
    if opts.multiple.getD false then cleanupAll fs (reqFilesList req.files)
    else
      match req.file with
      | some f => cleanupTemp fs f
      | none => fs

/-- The observable outcome of one middleware invocation: the final request
object, the argument of the next() continuation (none for success), the
final filesystem, and the trace of backend upload calls. -/
structure MWResult where
  req : RequestLike
  nextErr : Option String
  fs : Fs
  calls : List UploadCall

/-- The initialisation if (!req.uploadedFiles) req.uploadedFiles = {}. -/
def initUploaded (req : RequestLike) : RequestLike :=
  match req.uploadedFiles with
  | none => { req with uploadedFiles := some [] }
  | some _ => req

/-- The middleware returned by createStorageUploadMiddleware, as one pure
function of the options, the abstracted backend, Date.now(), the incoming
request and the filesystem. -/
def createStorageUploadMiddleware (opts : StorageMiddlewareOptions)
    (backend : Backend) (now : Nat) (req : RequestLike) (fs : Fs) : MWResult :=
  let st : MWState := ⟨initUploaded req, fs, []⟩
  match runBody opts backend now st with
  | (.ok, st₁) => ⟨st₁.req, none, st₁.fs, st₁.calls⟩
  | (.early e, st₁) => ⟨st₁.req, some e, st₁.fs, st₁.calls⟩
  | (.thrown e, st₁) => ⟨st₁.req, some e, catchCleanup opts st₁.req st₁.fs, st₁.calls⟩

/-! Concrete fixtures used by the counterexample and witness theorems. -/

/-- A 100-byte png attached to the photos field. -/
def exFileA : FileUpload :=
  ⟨"photos", "a.png", "7bit", "image/png", 100, "/tmp", "fa.png", "/tmp/a"⟩

/-- A 200-byte pdf attached to the docs field. -/
def exFileB : FileUpload :=
  ⟨"docs", "b.pdf", "7bit", "application/pdf", 200, "/tmp", "fb.pdf", "/tmp/b"⟩

/-- A 50-byte gif attached to the photos field. -/
def exFileC : FileUpload :=
  ⟨"photos", "c.gif", "7bit", "image/gif", 50, "/tmp", "fc.gif", "/tmp/c"⟩

/-- A 20-byte file, larger than the 10-byte limit used in the fixtures. -/
def exFileBig : FileUpload :=
  ⟨"file", "big.bin", "7bit", "application/x", 20, "/tmp", "big.bin", "/tmp/big"⟩

/-- A deterministic URL shape for backends that always succeed. -/
def urlOfName : UploadCall → String := fun c => "url-" ++ c.fileName

/-- A backend whose uploads always succeed. -/
def okBackend : Backend := fun c => .ok (urlOfName c)

/-- A backend that fails exactly on the upload of fb.pdf. -/
def failOnB : Backend :=
  fun c => if c.fileName = "fb.pdf" then .error "backend down" else .ok (urlOfName c)

/-- Options with every property absent. -/
def baseOpts : StorageMiddlewareOptions := ⟨none, none, none, none, none, none⟩

/-- A field configuration for photos with every optional property absent. -/
def fcPlain : FieldConfig := ⟨"photos", none, none, none, none⟩

/-- A field configuration for the field named file with everything absent. -/
def fcFile : FieldConfig := ⟨"file", none, none, none, none⟩

/-- photos with maxCount 1. -/
def fcPhotos1 : FieldConfig := ⟨"photos", some 1, none, none, none⟩

/-- docs with maxCount 1. -/
def fcDocs1 : FieldConfig := ⟨"docs", some 1, none, none, none⟩

/-- photos with maxCount 1 and a filter that rejects every file. -/
def fcRejectAll : FieldConfig := ⟨"photos", some 1, some (fun _ _ => false), none, none⟩

/-- photos with a folder whose value already ends in a separator. -/
def fcFolder : FieldConfig := ⟨"photos", none, none, none, some "uploads/"⟩

/-- photos with a filter that accepts only the original name a.png. -/
def fcFilterPhotos : FieldConfig :=
  ⟨"photos", none, some (fun _ f => f.originalname == "a.png"), none, none⟩

/-- A request carrying exFileA under req.file (single-file shape). -/
def reqSingleA : RequestLike := ⟨some exFileA, .absent, none⟩

/-- A request whose req.files maps photos to exFileA. -/
def reqByPhotos : RequestLike := ⟨none, .byField [("photos", .one exFileA)], none⟩

/-- A request with both a photos file and a docs file. -/
def reqTwoFields : RequestLike :=
  ⟨none, .byField [("photos", .one exFileA), ("docs", .one exFileB)], none⟩

/-- A request whose req.files maps file to the oversize exFileBig. -/
def reqByBig : RequestLike := ⟨none, .byField [("file", .one exFileBig)], none⟩

/-- A request carrying the oversize exFileBig under req.file. -/
def reqBig : RequestLike := ⟨some exFileBig, .absent, none⟩

/-- A request with two files in the array shape of req.files. -/
def reqMulti : RequestLike := ⟨none, .many [exFileA, exFileB], none⟩

/-- A request mapping photos to a rejected file followed by an accepted
one. -/
def reqPhotosCA : RequestLike :=
  ⟨none, .byField [("photos", .many [exFileC, exFileA])], none⟩

/-- An empty request: no file, no files, no uploadedFiles. -/
def reqEmpty : RequestLike := ⟨none, .absent, none⟩

/-- Single-file options with a filter that rejects every file. -/
def optsRejectSingle : StorageMiddlewareOptions :=
  { baseOpts with fileFilter := some (fun _ _ => false) }

/-- Multi-field options with the plain photos configuration. -/
def optsFieldsPlain : StorageMiddlewareOptions :=
  { baseOpts with fields := some [fcPlain] }

/-- Multi-field options that also carry a 10-byte global size limit. -/
def optsFieldsLimit : StorageMiddlewareOptions :=
  { baseOpts with fields := some [fcFile], limits := some ⟨some 10, none⟩ }

/-- Multi-field options with photos and docs, both maxCount 1. -/
def optsTwoFields : StorageMiddlewareOptions :=
  { baseOpts with fields := some [fcPhotos1, fcDocs1] }

/-- Multi-field options that also carry a global reject-all filter. -/
def optsGlobalFilterFields : StorageMiddlewareOptions :=
  { baseOpts with fields := some [fcPlain], fileFilter := some (fun _ _ => false) }

/-- Multi-field options with the trailing-separator folder. -/
def optsFolder : StorageMiddlewareOptions :=
  { baseOpts with fields := some [fcFolder] }

/-- Multi-field options whose photos filter rejects every file. -/
def optsRejectFields : StorageMiddlewareOptions :=
  { baseOpts with fields := some [fcRejectAll] }

/-- Multi-field options with the accept-only-a.png photos filter. -/
def optsFilterFields : StorageMiddlewareOptions :=
  { baseOpts with fields := some [fcFilterPhotos] }

/-- Multiple-files options. -/
def optsMulti : StorageMiddlewareOptions :=
  { baseOpts with multiple := some true }

/-- Single-file options with a 10-byte size limit. -/
def optsSingleLimit : StorageMiddlewareOptions :=
  { baseOpts with limits := some ⟨some 10, none⟩ }

/-- The files of one field that survive the per-field filter of the
multi-field path. -/
def acceptedFiles (fc : FieldConfig) (req : RequestLike)
    (l : List FileUpload) : List FileUpload :=
  l.filter (fun f => !(rejectsFile fc.fileFilter req f))

/-- The middleware state carried by either outcome of the per-file loop of
the multi-field path (used to state facts that hold on both the ok and
the error side). -/
def exceptState : Except (String × MWState) (List String × MWState) → MWState
  | .ok (_, st) => st
  | .error (_, st) => st

/-- The middleware state carried by either outcome of the multi-field
loop. -/
def fieldsState : Except (String × MWState) MWState → MWState
  | .ok st => st
  | .error (_, st) => st

/-! Shared lemmas about the cleanup primitives and the uploadedFiles map. -/

theorem mem_unlinkSync {fs : Fs} {p q : String} (h : q ∈ unlinkSync fs p) :
    q ∈ fs := by
  have h₂ := List.mem_filter.1 h
  exact h₂.1

theorem not_mem_unlinkSync (fs : Fs) (p : String) : p ∉ unlinkSync fs p := by
  intro h
  simp [unlinkSync, List.mem_filter] at h

theorem mem_cleanupTemp {fs : Fs} {f : FileUpload} {q : String}
    (h : q ∈ cleanupTemp fs f) : q ∈ fs := by
  unfold cleanupTemp at h
  split at h
  · exact mem_unlinkSync h
  · exact h

theorem cleanupTemp_not_mem {fs : Fs} {f : FileUpload} (hp : f.path ≠ "") :
    f.path ∉ cleanupTemp fs f := by
  intro h
  unfold cleanupTemp at h
  split at h
  · exact not_mem_unlinkSync fs f.path h
  · rename_i hcond
    simp only [existsSync, Bool.and_eq_true, decide_eq_true_eq] at hcond
    exact hcond ⟨hp, h⟩

theorem cleanupTemp_absent {fs : Fs} {f : FileUpload}
    (h : existsSync fs f.path = false) : cleanupTemp fs f = fs := by
  unfold cleanupTemp
  rw [h]
  simp

theorem mem_cleanupAll {l : List FileUpload} :
    ∀ {fs : Fs} {q : String}, q ∈ cleanupAll fs l → q ∈ fs := by
  induction l with
  | nil => intro fs q h; simpa [cleanupAll] using h
  | cons g rest ih =>
    intro fs q h
    have h₁ : q ∈ cleanupTemp fs g := ih (by simpa [cleanupAll] using h)
    exact mem_cleanupTemp h₁

theorem cleanupAll_not_mem {l : List FileUpload} {f : FileUpload}
    (hf : f ∈ l) (hp : f.path ≠ "") : ∀ {fs : Fs}, f.path ∉ cleanupAll fs l := by
  induction l with
  | nil => cases hf
  | cons g rest ih =>
    intro fs
    rcases List.mem_cons.1 hf with rfl | hmem
    · intro h
      have h₁ : f.path ∈ cleanupTemp fs f := mem_cleanupAll (by simpa [cleanupAll] using h)
      exact cleanupTemp_not_mem hp h₁
    · intro h
      exact ih hmem (by simpa [cleanupAll] using h)

theorem lookupField_setField (m : UploadedFiles) (k : String) (v : UploadValue) :
    lookupField (setField m k v) k = some v := by
  induction m with
  | nil => simp [setField, lookupField]
  | cons p rest ih =>
    by_cases h : p.1 = k
    · simp [setField, lookupField, h]
    · simp [setField, lookupField, h, ih]

theorem initUploaded_file (req : RequestLike) :
    (initUploaded req).file = req.file := by
  unfold initUploaded
  cases req.uploadedFiles <;> rfl

theorem initUploaded_files (req : RequestLike) :
    (initUploaded req).files = req.files := by
  unfold initUploaded
  cases req.uploadedFiles <;> rfl

theorem initUploaded_uploadedFiles (req : RequestLike) :
    (initUploaded req).uploadedFiles = some (req.uploadedFiles.getD []) := by
  unfold initUploaded
  cases h : req.uploadedFiles <;> simp [h]

theorem setUploaded_files (req : RequestLike) (k : String) (v : UploadValue) :
    (setUploaded req k v).files = req.files := rfl

theorem mem_sweepFields {req : RequestLike} :
    ∀ {fcs : List FieldConfig} {fs : Fs} {q : String},
    q ∈ sweepFields req fs fcs → q ∈ fs := by
  intro fcs
  induction fcs with
  | nil => intro fs q h; simpa [sweepFields] using h
  | cons fc rest ih =>
    intro fs q h
    exact mem_cleanupAll (ih (by simpa [sweepFields] using h))

theorem sweepFields_cleans {req : RequestLike} {fcs : List FieldConfig}
    {fc : FieldConfig} (hfc : fc ∈ fcs) {f : FileUpload}
    (hf : f ∈ entryFiles req.files fc.fieldName) (hp : f.path ≠ "") :
    ∀ {fs : Fs}, f.path ∉ sweepFields req fs fcs := by
  induction fcs with
  | nil => cases hfc
  | cons g rest ih =>
    intro fs
    rcases List.mem_cons.1 hfc with rfl | hmem
    · intro h
      exact cleanupAll_not_mem hf hp (mem_sweepFields (by simpa [sweepFields] using h))
    · intro h
      exact ih hmem (by simpa [sweepFields] using h)

/-! Lemmas about the multi-field per-file loop. -/

theorem processFieldFiles_fs_subset (backend : Backend) (now : Nat)
    (fc : FieldConfig) :
    ∀ (l : List FileUpload) (urls : List String) (st : MWState) {q : String},
    q ∈ (exceptState (processFieldFiles backend now fc l urls st)).fs →
    q ∈ st.fs := by
  intro l
  induction l with
  | nil =>
    intro urls st q h
    simpa [processFieldFiles, exceptState] using h
  | cons f rest ih =>
    intro urls st q h
    rw [processFieldFiles] at h
    split at h
    · exact mem_cleanupTemp (ih _ _ h)
    · simp only [] at h
      split at h
      · simpa [exceptState] using h
      · exact mem_cleanupTemp (ih _ _ h)

theorem processFieldFiles_ok_subset (backend : Backend) (now : Nat)
    (fc : FieldConfig) {l : List FileUpload} {urls urls₂ : List String}
    {st st₂ : MWState}
    (heq : processFieldFiles backend now fc l urls st = .ok (urls₂, st₂))
    {q : String} (h : q ∈ st₂.fs) : q ∈ st.fs := by
  have hsub := processFieldFiles_fs_subset backend now fc l urls st (q := q)
  rw [heq] at hsub
  exact hsub (by simpa [exceptState] using h)

theorem processFieldFiles_req (backend : Backend) (now : Nat)
    (fc : FieldConfig) :
    ∀ (l : List FileUpload) (urls : List String) (st : MWState),
    (exceptState (processFieldFiles backend now fc l urls st)).req = st.req := by
  intro l
  induction l with
  | nil =>
    intro urls st
    simp [processFieldFiles, exceptState]
  | cons f rest ih =>
    intro urls st
    rw [processFieldFiles]
    split
    · exact ih _ _
    · simp only []
      split
      · simp [exceptState]
      · exact ih _ _

theorem processFieldFiles_cleans (backend : Backend) (now : Nat)
    (fc : FieldConfig) :
    ∀ (l : List FileUpload) (urls : List String) (st : MWState)
      (urls₂ : List String) (st₂ : MWState),
    processFieldFiles backend now fc l urls st = .ok (urls₂, st₂) →
    ∀ f ∈ l, f.path ≠ "" → f.path ∉ st₂.fs := by
  intro l
  induction l with
  | nil => intro urls st urls₂ st₂ _ f hf; cases hf
  | cons g rest ih =>
    intro urls st urls₂ st₂ heq f hf hp
    rw [processFieldFiles] at heq
    split at heq
    · rcases List.mem_cons.1 hf with rfl | hmem
      · intro hmem₂
        exact cleanupTemp_not_mem hp
          (processFieldFiles_ok_subset backend now fc heq hmem₂)
      · exact ih _ _ _ _ heq f hmem hp
    · simp only [] at heq
      split at heq
      · cases heq
      · rcases List.mem_cons.1 hf with rfl | hmem
        · intro hmem₂
          exact cleanupTemp_not_mem hp
            (processFieldFiles_ok_subset backend now fc heq hmem₂)
        · exact ih _ _ _ _ heq f hmem hp

/-! Lemmas about one field of the multi-field loop. -/

theorem processField_fs_subset (backend : Backend) (now : Nat)
    (fc : FieldConfig) (st : MWState) {q : String}
    (h : q ∈ (fieldsState (processField backend now fc st)).fs) : q ∈ st.fs := by
  unfold processField at h
  split at h
  · simpa [fieldsState] using h
  · rename_i entry heq
    rcases hpf : processFieldFiles backend now fc entry.toList [] st with es | p
    · rw [hpf] at h
      have hsub := processFieldFiles_fs_subset backend now fc entry.toList [] st (q := q)
      rw [hpf] at hsub
      exact hsub (by simpa [fieldsState, exceptState] using h)
    · rw [hpf] at h
      have hsub := processFieldFiles_fs_subset backend now fc entry.toList [] st (q := q)
      rw [hpf] at hsub
      rcases p with ⟨urls, st₁⟩
      exact hsub (by simpa [fieldsState, exceptState] using h)

theorem processField_req_files (backend : Backend) (now : Nat)
    (fc : FieldConfig) (st : MWState) :
    (fieldsState (processField backend now fc st)).req.files = st.req.files := by
  unfold processField
  split
  · simp [fieldsState]
  · rename_i entry heq
    rcases hpf : processFieldFiles backend now fc entry.toList [] st with es | p
    · have hreq := processFieldFiles_req backend now fc entry.toList [] st
      rw [hpf] at hreq
      simp only [fieldsState]
      rw [show es.2.req = st.req from by simpa [exceptState] using hreq]
    · rcases p with ⟨urls, st₁⟩
      have hreq := processFieldFiles_req backend now fc entry.toList [] st
      rw [hpf] at hreq
      simp only [fieldsState, setUploaded_files]
      rw [show st₁.req = st.req from by simpa [exceptState] using hreq]

/-! Lemmas about the loop over options.fields. -/

theorem processFields_fs_subset (backend : Backend) (now : Nat) :
    ∀ (fcs : List FieldConfig) (st : MWState) {q : String},
    q ∈ (fieldsState (processFields backend now fcs st)).fs → q ∈ st.fs := by
  intro fcs
  induction fcs with
  | nil => intro st q h; simpa [processFields, fieldsState] using h
  | cons fc rest ih =>
    intro st q h
    rw [processFields] at h
    rcases hpf : processField backend now fc st with es | st₁
    · rw [hpf] at h
      have hsub := processField_fs_subset backend now fc st (q := q)
      rw [hpf] at hsub
      exact hsub h
    · rw [hpf] at h
      have hsub := processField_fs_subset backend now fc st (q := q)
      rw [hpf] at hsub
      exact hsub (by simpa [fieldsState] using ih st₁ h)

theorem processFields_req_files (backend : Backend) (now : Nat) :
    ∀ (fcs : List FieldConfig) (st : MWState),
    (fieldsState (processFields backend now fcs st)).req.files = st.req.files := by
  intro fcs
  induction fcs with
  | nil => intro st; simp [processFields, fieldsState]
  | cons fc rest ih =>
    intro st
    rw [processFields]
    rcases hpf : processField backend now fc st with es | st₁
    · have hfl := processField_req_files backend now fc st
      rw [hpf] at hfl
      exact hfl
    · have hfl := processField_req_files backend now fc st
      rw [hpf] at hfl
      simp only [fieldsState] at hfl
      rw [ih st₁, hfl]

theorem processField_cleans (backend : Backend) (now : Nat) (fc : FieldConfig)
    {st st₁ : MWState} (heq : processField backend now fc st = .ok st₁) :
    ∀ f ∈ entryFiles st.req.files fc.fieldName, f.path ≠ "" →
    f.path ∉ st₁.fs := by
  intro f hf hp
  unfold processField at heq
  split at heq
  · rename_i hlook
    simp [entryFiles, hlook] at hf
  · rename_i entry hlook
    rcases hpf : processFieldFiles backend now fc entry.toList [] st with es | p
    · rw [hpf] at heq; cases heq
    · rcases p with ⟨urls, stA⟩
      rw [hpf] at heq
      simp only [Except.ok.injEq] at heq
      have hfs : st₁.fs = stA.fs := by rw [← heq]
      rw [hfs]
      have hf₂ : f ∈ entry.toList := by simpa [entryFiles, hlook] using hf
      exact processFieldFiles_cleans backend now fc entry.toList [] st urls stA hpf f hf₂ hp

theorem processFields_cleans (backend : Backend) (now : Nat) :
    ∀ (fcs : List FieldConfig) (st st₂ : MWState),
    processFields backend now fcs st = .ok st₂ →
    ∀ fc ∈ fcs, ∀ f ∈ entryFiles st.req.files fc.fieldName, f.path ≠ "" →
    f.path ∉ st₂.fs := by
  intro fcs
  induction fcs with
  | nil => intro st st₂ _ fc hfc; cases hfc
  | cons g rest ih =>
    intro st st₂ heq fc hfc f hf hp
    rw [processFields] at heq
    rcases hpf : processField backend now g st with es | st₁
    · rw [hpf] at heq; cases heq
    · rw [hpf] at heq
      have heq₂ : processFields backend now rest st₁ = Except.ok st₂ := heq
      rcases List.mem_cons.1 hfc with rfl | hmem
      · intro hmem₂
        have hcl := processField_cleans backend now fc hpf f hf hp
        have hsub := processFields_fs_subset backend now rest st₁ (q := f.path)
        rw [heq₂] at hsub
        exact hcl (hsub (by simpa [fieldsState] using hmem₂))
      · have hfl := processField_req_files backend now g st
        rw [hpf] at hfl
        simp only [fieldsState] at hfl
        have hf₂ : f ∈ entryFiles st₁.req.files fc.fieldName := by rw [hfl]; exact hf
        exact ih st₁ st₂ heq₂ fc hmem f hf₂ hp

/-! Characterisation of the multi-field per-file loop when every backend
upload succeeds, and when every file is rejected by the field filter. -/

theorem processFieldFiles_allOk (urlOf : UploadCall → String) (now : Nat)
    (fc : FieldConfig) :
    ∀ (l : List FileUpload) (urls : List String) (st : MWState),
    processFieldFiles (fun c => .ok (urlOf c)) now fc l urls st =
      .ok (urls ++ (acceptedFiles fc st.req l).map
             (fun f => urlOf (fieldCall fc now st.req f)),
           ⟨st.req, cleanupAll st.fs l,
            st.calls ++ (acceptedFiles fc st.req l).map (fieldCall fc now st.req)⟩) := by
  intro l
  induction l with
  | nil =>
    intro urls st
    simp [processFieldFiles, acceptedFiles, cleanupAll]
  | cons f rest ih =>
    intro urls st
    rw [processFieldFiles]
    by_cases hrej : rejectsFile fc.fileFilter st.req f = true
    · rw [if_pos hrej, ih]
      simp [acceptedFiles, List.filter_cons, hrej, cleanupAll]
    · rw [if_neg hrej]
      simp only []
      rw [ih]
      simp only [acceptedFiles, List.filter_cons]
      rw [show (!rejectsFile fc.fileFilter st.req f) = true by
        simpa using hrej]
      simp [cleanupAll, List.append_assoc]

theorem processFieldFiles_rejected (backend : Backend) (now : Nat)
    (fc : FieldConfig) :
    ∀ (l : List FileUpload) (urls : List String) (st : MWState),
    (∀ f ∈ l, rejectsFile fc.fileFilter st.req f = true) →
    processFieldFiles backend now fc l urls st =
      .ok (urls, ⟨st.req, cleanupAll st.fs l, st.calls⟩) := by
  intro l
  induction l with
  | nil =>
    intro urls st _
    simp [processFieldFiles, cleanupAll]
  | cons f rest ih =>
    intro urls st hall
    rw [processFieldFiles, if_pos (hall f (List.mem_cons_self f rest))]
    have h₂ := ih urls ⟨st.req, cleanupTemp st.fs f, st.calls⟩
      (fun g hg => hall g (List.mem_cons_of_mem f hg))
    exact h₂.trans (by simp [cleanupAll])

/-! Lemmas about the fan-out closures of the multiple-files path. -/

theorem runClosures_calls (backend : Backend)
    (gen : Option (RequestLike → FileUpload → String)) (limits : Option Limits)
    (req : RequestLike) :
    ∀ (l : List FileUpload) (fs : Fs) (calls : List UploadCall),
    (runClosures backend gen limits req l fs calls).2.2 =
      calls ++ (l.filter (fun f => !(sizeExceeded limits f.size))).map
        (closureCall gen req) := by
  intro l
  induction l with
  | nil => intro fs calls; simp [runClosures]
  | cons f rest ih =>
    intro fs calls
    rw [runClosures]
    by_cases hsz : sizeExceeded limits f.size = true
    · rw [if_pos hsz]
      simp only [List.filter_cons]
      rw [show (!sizeExceeded limits f.size) = false by simpa using hsz]
      simpa using ih fs calls
    · rw [if_neg hsz]
      simp only [List.filter_cons]
      rw [show (!sizeExceeded limits f.size) = true by simpa using hsz]
      rcases hb : backend (closureCall gen req f) with e | url
      · simpa [List.append_assoc] using ih fs (calls ++ [closureCall gen req f])
      · simpa [List.append_assoc] using ih (cleanupTemp fs f) (calls ++ [closureCall gen req f])

theorem runClosures_allOk (urlOf : UploadCall → String)
    (gen : Option (RequestLike → FileUpload → String)) (limits : Option Limits)
    (req : RequestLike) :
    ∀ (l : List FileUpload) (fs : Fs) (calls : List UploadCall),
    (∀ f ∈ l, sizeExceeded limits f.size = false) →
    runClosures (fun c => .ok (urlOf c)) gen limits req l fs calls =
      (l.map (fun f => .ok (urlOf (closureCall gen req f))),
       cleanupAll fs l, calls ++ l.map (closureCall gen req)) := by
  intro l
  induction l with
  | nil => intro fs calls _; simp [runClosures, cleanupAll]
  | cons f rest ih =>
    intro fs calls hall
    rw [runClosures, if_neg (by simp [hall f (List.mem_cons_self f rest)])]
    simp only []
    rw [ih (cleanupTemp fs f) (calls ++ [closureCall gen req f])
      (fun g hg => hall g (List.mem_cons_of_mem f hg))]
    simp [cleanupAll, List.append_assoc]

theorem promiseAll_map_ok (u : FileUpload → String) :
    ∀ l : List FileUpload,
    promiseAll (l.map (fun f => .ok (u f))) = .ok (l.map u) := by
  intro l
  induction l with
  | nil => simp [promiseAll]
  | cons f rest ih => simp [promiseAll, ih]

/-! Top-level evaluation lemmas for each middleware mode. -/

theorem fields_single_allOk (opts : StorageMiddlewareOptions)
    (urlOf : UploadCall → String) (now : Nat) (req : RequestLike) (fs : Fs)
    (fc : FieldConfig) (entry : FieldEntry)
    (hf : opts.fields = some [fc])
    (he : filesForField req.files fc.fieldName = some entry) :
    createStorageUploadMiddleware opts (fun c => .ok (urlOf c)) now req fs =
      ⟨setUploaded (initUploaded req) fc.fieldName
         (storeValue fc.maxCount
           ((acceptedFiles fc (initUploaded req) entry.toList).map
             (fun f => urlOf (fieldCall fc now (initUploaded req) f)))),
       none,
       cleanupAll fs entry.toList,
       (acceptedFiles fc (initUploaded req) entry.toList).map
         (fieldCall fc now (initUploaded req))⟩ := by
  have he₂ : filesForField (initUploaded req).files fc.fieldName = some entry := by
    rw [initUploaded_files]; exact he
  simp only [createStorageUploadMiddleware, runBody, hf, processFields, processField, he₂,
    processFieldFiles_allOk]
  rfl

theorem fields_single_rejected (opts : StorageMiddlewareOptions)
    (backend : Backend) (now : Nat) (req : RequestLike) (fs : Fs)
    (fc : FieldConfig) (entry : FieldEntry)
    (hf : opts.fields = some [fc])
    (he : filesForField req.files fc.fieldName = some entry)
    (hrej : ∀ f ∈ entry.toList,
      rejectsFile fc.fileFilter (initUploaded req) f = true) :
    createStorageUploadMiddleware opts backend now req fs =
      ⟨setUploaded (initUploaded req) fc.fieldName (storeValue fc.maxCount []),
       none, cleanupAll fs entry.toList, []⟩ := by
  have he₂ : filesForField (initUploaded req).files fc.fieldName = some entry := by
    rw [initUploaded_files]; exact he
  have hpf := processFieldFiles_rejected backend now fc entry.toList []
    ⟨initUploaded req, fs, []⟩ hrej
  simp only [createStorageUploadMiddleware, runBody, hf, processFields, processField, he₂, hpf]

theorem multiple_allOk (opts : StorageMiddlewareOptions)
    (urlOf : UploadCall → String) (now : Nat) (req : RequestLike) (fs : Fs)
    (hf : opts.fields = none) (hm : opts.multiple.getD false = true)
    (hl : opts.limits = none) (hne : 0 < (reqFilesList req.files).length) :
    createStorageUploadMiddleware opts (fun c => .ok (urlOf c)) now req fs =
      ⟨setUploaded (initUploaded req) (opts.fieldName.getD "file")
         (.arr ((filteredList opts (initUploaded req)).map
           (fun f => urlOf (closureCall opts.generateFileName (initUploaded req) f)))),
       none,
       cleanupAll fs (filteredList opts (initUploaded req)),
       (filteredList opts (initUploaded req)).map
         (closureCall opts.generateFileName (initUploaded req))⟩ := by
  have hne₂ : 0 < (reqFilesList (initUploaded req).files).length := by
    rw [initUploaded_files]; exact hne
  have hnosz : ∀ f ∈ filteredList opts (initUploaded req),
      sizeExceeded opts.limits f.size = false := by
    intro f _
    simp [hl, sizeExceeded, fileSizeLimit]
  have hcount : tooManyFiles opts.limits (filteredList opts (initUploaded req)).length = false := by
    simp [hl, tooManyFiles, filesLimit]
  have hrc := runClosures_allOk urlOf opts.generateFileName opts.limits
    (initUploaded req) (filteredList opts (initUploaded req)) fs [] hnosz
  simp only [createStorageUploadMiddleware, runBody, hf, singleOrMultipleBody, hm, if_true,
    runMultipleBody, hne₂, if_pos, hcount, Bool.false_eq_true, if_false, multiUpload, hrc,
    promiseAll_map_ok, List.nil_append]

/-! The request object is unchanged whenever the single/multiple body does
not reach its success assignment. -/

theorem runSingleBody_req (opts : StorageMiddlewareOptions) (backend : Backend)
    (st : MWState) :
    (runSingleBody opts backend st).1 = .ok ∨
    ((runSingleBody opts backend st).2).req = st.req := by
  unfold runSingleBody
  rcases st.req.file with _ | f
  · exact Or.inl rfl
  · simp only []
    split
    · exact Or.inr rfl
    · split
      · exact Or.inr rfl
      · unfold singleUpload
        rcases hb : backend (closureCall opts.generateFileName st.req f) with e | url
        · exact Or.inr rfl
        · exact Or.inl rfl

theorem runMultipleBody_req (opts : StorageMiddlewareOptions) (backend : Backend)
    (st : MWState) :
    (runMultipleBody opts backend st).1 = .ok ∨
    ((runMultipleBody opts backend st).2).req = st.req := by
  unfold runMultipleBody
  split
  · split
    · exact Or.inr rfl
    · unfold multiUpload
      rcases hrc : runClosures backend opts.generateFileName opts.limits st.req
          (filteredList opts st.req) st.fs st.calls with ⟨results, fs₁, calls₁⟩
      dsimp only
      rcases hpa : promiseAll results with e | urls
      · exact Or.inr rfl
      · exact Or.inl rfl
  · exact Or.inl rfl

theorem singleOrMultipleBody_req (opts : StorageMiddlewareOptions)
    (backend : Backend) (st : MWState) :
    (singleOrMultipleBody opts backend st).1 = .ok ∨
    ((singleOrMultipleBody opts backend st).2).req = st.req := by
  unfold singleOrMultipleBody
  split
  · exact runMultipleBody_req opts backend st
  · exact runSingleBody_req opts backend st

/-! Further helper lemmas used by the claim theorems. -/

theorem filteredList_subset {opts : StorageMiddlewareOptions} {req : RequestLike}
    {f : FileUpload} (h : f ∈ filteredList opts req) :
    f ∈ reqFilesList req.files := by
  unfold filteredList at h
  rcases hff : opts.fileFilter with _ | φ
  · rw [hff] at h
    exact h
  · rw [hff] at h
    exact (List.mem_filter.1 h).1

theorem multiple_calls (opts : StorageMiddlewareOptions) (backend : Backend)
    (now : Nat) (req : RequestLike) (fs : Fs)
    (hf : opts.fields = none) (hm : opts.multiple.getD false = true) :
    (createStorageUploadMiddleware opts backend now req fs).calls = [] ∨
    (createStorageUploadMiddleware opts backend now req fs).calls =
      ((filteredList opts (initUploaded req)).filter
          (fun f => !(sizeExceeded opts.limits f.size))).map
        (closureCall opts.generateFileName (initUploaded req)) := by
  simp only [createStorageUploadMiddleware, runBody, hf, singleOrMultipleBody, hm, if_true,
    runMultipleBody]
  by_cases hlen : 0 < (reqFilesList (initUploaded req).files).length
  · rw [if_pos hlen]
    by_cases hcnt : tooManyFiles opts.limits (filteredList opts (initUploaded req)).length = true
    · rw [if_pos hcnt]
      exact Or.inl rfl
    · rw [if_neg hcnt]
      unfold multiUpload
      have hc := runClosures_calls backend opts.generateFileName opts.limits
        (initUploaded req) (filteredList opts (initUploaded req)) fs []
      rcases hrc : runClosures backend opts.generateFileName opts.limits (initUploaded req)
          (filteredList opts (initUploaded req)) fs [] with ⟨results, fs₁, calls₁⟩
      rw [hrc] at hc
      simp only [List.nil_append] at hc
      dsimp only
      rcases hpa : promiseAll results with e | urls
      · exact Or.inr hc
      · exact Or.inr hc
  · rw [if_neg hlen]
    exact Or.inl rfl

theorem storeValue_str_iff (mc : Option Nat) (urls : List String) :
    (∃ s, storeValue mc urls = .str s) ↔ (mc = some 1 ∨ urls.length = 1) := by
  unfold storeValue
  by_cases h : (mc == some 1 || urls.length == 1) = true
  · rw [if_pos h]
    constructor
    · intro _
      simpa using h
    · intro _
      exact ⟨urls.headD "", rfl⟩
  · rw [if_neg h]
    constructor
    · rintro ⟨s, hs⟩
      cases hs
    · intro h₂
      exfalso
      apply h
      simpa using h₂

/-! The claim theorems. -/

/-- Claim C1, counterexample: in the single-file configuration a
content-filter rejection surfaces an error through the continuation but
leaves the temporary artifact /tmp/a on disk, so the claim that every
failure path (content-filter rejection included) releases every artifact
is false at this input. -/
theorem c1_cleanup_counterexample :
    (createStorageUploadMiddleware optsRejectSingle okBackend 0 reqSingleA
        ["/tmp/a"]).nextErr = some "File type not allowed" ∧
    "/tmp/a" ∈ (createStorageUploadMiddleware optsRejectSingle okBackend 0
        reqSingleA ["/tmp/a"]).fs := by
  decide

/-- Claim C1 (amended): in the multi-field configuration, every temporary
artifact belonging to a file of a configured field is released by the time
the middleware hands control to the continuation, on the success path and
on every failure path, and releasing an already-absent artifact is a
no-op.  (The single-file and multiple-files paths do not release on their
early-return rejection paths, which is what the counterexample exhibits.) -/
theorem c1_cleanup_amended (opts : StorageMiddlewareOptions) (backend : Backend)
    (now : Nat) (req : RequestLike) (fs : Fs) (fcs : List FieldConfig)
    (hf : opts.fields = some fcs) (hne : fcs ≠ []) :
    (∀ fc ∈ fcs, ∀ f ∈ entryFiles req.files fc.fieldName, f.path ≠ "" →
       f.path ∉ (createStorageUploadMiddleware opts backend now req fs).fs) ∧
    (∀ (fs₂ : Fs) (g : FileUpload), existsSync fs₂ g.path = false →
       cleanupTemp fs₂ g = fs₂) := by
  constructor
  · intro fc hfc f hfm hp
    obtain ⟨fc₀, rest, rfl⟩ : ∃ a l, fcs = a :: l := by
      cases fcs
      · exact absurd rfl hne
      · exact ⟨_, _, rfl⟩
    simp only [createStorageUploadMiddleware, runBody, hf]
    rcases hpr : processFields backend now (fc₀ :: rest) ⟨initUploaded req, fs, []⟩
      with es | st₁
    · rcases es with ⟨e, st₁⟩
      dsimp only
      have hfl := processFields_req_files backend now (fc₀ :: rest)
        ⟨initUploaded req, fs, []⟩
      rw [hpr] at hfl
      simp only [fieldsState] at hfl
      rw [initUploaded_files] at hfl
      have hfm₂ : f ∈ entryFiles st₁.req.files fc.fieldName := by
        rw [hfl]; exact hfm
      simp only [catchCleanup, hf]
      exact sweepFields_cleans hfc hfm₂ hp
    · dsimp only
      have hfm₂ : f ∈ entryFiles
          (⟨initUploaded req, fs, []⟩ : MWState).req.files fc.fieldName := by
        show f ∈ entryFiles (initUploaded req).files fc.fieldName
        rw [initUploaded_files]; exact hfm
      exact processFields_cleans backend now (fc₀ :: rest) _ st₁ hpr fc hfc f hfm₂ hp
  · intro fs₂ g h
    exact cleanupTemp_absent h

/-- Claim C1, witness: a concrete multi-field run in which the artifact of
the uploaded photos file is gone from the filesystem afterwards. -/
theorem c1_cleanup_amended_witness :
    "/tmp/a" ∉ (createStorageUploadMiddleware optsFieldsPlain okBackend 0
        reqByPhotos ["/tmp/a"]).fs :=
  (c1_cleanup_amended optsFieldsPlain okBackend 0 reqByPhotos ["/tmp/a"]
      [fcPlain] rfl (by simp)).1
    fcPlain (List.mem_singleton.2 rfl) exFileA (by decide) (by decide)

/-- Claim C2, counterexample: the multi-field path performs no size check,
so with a 10-byte limit configured the 20-byte file is still uploaded: the
backend call is issued, contradicting the claim for the multi-field
configuration. -/
theorem c2_size_counterexample :
    sizeExceeded optsFieldsLimit.limits exFileBig.size = true ∧
    (createStorageUploadMiddleware optsFieldsLimit okBackend 0 reqByBig
        ["/tmp/big"]).calls = [⟨"big.bin", "/tmp/big", "application/x"⟩] := by
  decide

/-- Claim C2 (amended): in the single-file and multiple-files
configurations the backend upload is never issued for a file whose size
exceeds the configured limit: an oversize req.file produces no call at
all, and in the multiple path every issued call originates from a
non-oversize file of the request.  The multi-field path performs no size
check (counterexample). -/
theorem c2_size_amended (opts : StorageMiddlewareOptions) (backend : Backend)
    (now : Nat) (req : RequestLike) (fs : Fs) (hf : opts.fields = none) :
    (opts.multiple.getD false = false → ∀ f, req.file = some f →
       sizeExceeded opts.limits f.size = true →
       (createStorageUploadMiddleware opts backend now req fs).calls = []) ∧
    (opts.multiple.getD false = true →
       ∀ c ∈ (createStorageUploadMiddleware opts backend now req fs).calls,
       ∃ f, f ∈ reqFilesList req.files ∧
         sizeExceeded opts.limits f.size = false ∧
         c = closureCall opts.generateFileName (initUploaded req) f) := by
  constructor
  · intro hm f hfile hsz
    have hfile₂ : (initUploaded req).file = some f := by
      rw [initUploaded_file]; exact hfile
    simp only [createStorageUploadMiddleware, runBody, hf, singleOrMultipleBody, hm,
      Bool.false_eq_true, if_false, runSingleBody, hfile₂]
    by_cases hrej : rejectsFile opts.fileFilter (initUploaded req) f = true
    · simp [hrej]
    · simp [hrej, hsz]
  · intro hm c hc
    rcases multiple_calls opts backend now req fs hf hm with h0 | hmap
    · rw [h0] at hc
      cases hc
    · rw [hmap] at hc
      rcases List.mem_map.1 hc with ⟨f, hf₂, rfl⟩
      have hf₃ := List.mem_filter.1 hf₂
      refine ⟨f, ?_, ?_, rfl⟩
      · have hsub := filteredList_subset hf₃.1
        rwa [initUploaded_files] at hsub
      · simpa using hf₃.2

/-- Claim C2, witness: the single-file configuration with a 10-byte limit
and a 20-byte file issues no backend call. -/
theorem c2_size_amended_witness :
    (createStorageUploadMiddleware optsSingleLimit okBackend 0 reqBig
        ["/tmp/big"]).calls = [] :=
  (c2_size_amended optsSingleLimit okBackend 0 reqBig ["/tmp/big"] rfl).1
    rfl exFileBig rfl (by decide)

/-- Claim C3, counterexample: a multi-field field declared without
maxCount (multiple cardinality) for which exactly one file succeeds
yields a scalar string in req.uploadedFiles, not a one-element sequence. -/
theorem c3_shape_counterexample :
    fcPlain.maxCount = none ∧
    lookupField ((createStorageUploadMiddleware optsFieldsPlain okBackend 0
        reqByPhotos ["/tmp/a"]).req.uploadedFiles.getD []) "photos" =
      some (.str "url-fa.png") := by
  decide

/-- Claim C3 (amended): in the multi-field path the stored outcome of a
processed field is the scalar uploadedUrls[0] (or "") exactly when
maxCount == 1 or exactly one upload succeeded, and the ordered URL
sequence otherwise; with an always-succeeding backend the collected URLs
are those of the filter-accepted files. -/
theorem c3_shape_amended (opts : StorageMiddlewareOptions)
    (urlOf : UploadCall → String) (now : Nat) (req : RequestLike) (fs : Fs)
    (fc : FieldConfig) (entry : FieldEntry)
    (hf : opts.fields = some [fc])
    (he : filesForField req.files fc.fieldName = some entry) :
    lookupField ((createStorageUploadMiddleware opts (fun c => .ok (urlOf c))
        now req fs).req.uploadedFiles.getD []) fc.fieldName =
      some (storeValue fc.maxCount
        ((acceptedFiles fc (initUploaded req) entry.toList).map
          (fun f => urlOf (fieldCall fc now (initUploaded req) f)))) ∧
    (∀ (mc : Option Nat) (urls : List String),
       (∃ s, storeValue mc urls = .str s) ↔ (mc = some 1 ∨ urls.length = 1)) := by
  constructor
  · rw [fields_single_allOk opts urlOf now req fs fc entry hf he]
    simp [setUploaded, lookupField_setField]
  · exact storeValue_str_iff

/-- Claim C3, witness: a concrete run of the amended statement, with the
stored value evaluated. -/
theorem c3_shape_amended_witness :
    lookupField ((createStorageUploadMiddleware optsFieldsPlain
        (fun c => .ok (urlOfName c)) 0 reqByPhotos
        ["/tmp/a"]).req.uploadedFiles.getD []) "photos" =
      some (.str "url-fa.png") := by
  have h := (c3_shape_amended optsFieldsPlain urlOfName 0 reqByPhotos ["/tmp/a"]
    fcPlain (.one exFileA) rfl rfl).1
  exact h.trans (by decide)

/-- Claim C4, counterexample: in the single-file configuration a
content-filter rejection does not discard the file silently: the whole
request fails with an error through the continuation. -/
theorem c4_filter_counterexample :
    (createStorageUploadMiddleware optsRejectSingle okBackend 0 reqSingleA
        ["/tmp/a"]).nextErr = some "File type not allowed" := by
  decide

/-- Claim C4 (amended): only the multi-field path discards a
filter-rejected file silently: the request succeeds with no error, every
rejected file with an artifact gets its individual cleanup, and the
accepted files of the field are still uploaded in order.  In the
single-file path a rejection fails the request (counterexample), and in
the multiple-files path rejected files are merely excluded from the
upload set. -/
theorem c4_filter_amended (opts : StorageMiddlewareOptions)
    (urlOf : UploadCall → String) (now : Nat) (req : RequestLike) (fs : Fs)
    (fc : FieldConfig) (entry : FieldEntry)
    (hf : opts.fields = some [fc])
    (he : filesForField req.files fc.fieldName = some entry) :
    (createStorageUploadMiddleware opts (fun c => .ok (urlOf c)) now req
        fs).nextErr = none ∧
    (∀ f ∈ entry.toList,
       rejectsFile fc.fileFilter (initUploaded req) f = true → f.path ≠ "" →
       f.path ∉ (createStorageUploadMiddleware opts (fun c => .ok (urlOf c))
         now req fs).fs) ∧
    (createStorageUploadMiddleware opts (fun c => .ok (urlOf c)) now req
        fs).calls =
      (acceptedFiles fc (initUploaded req) entry.toList).map
        (fieldCall fc now (initUploaded req)) := by
  rw [fields_single_allOk opts urlOf now req fs fc entry hf he]
  refine ⟨rfl, ?_, rfl⟩
  intro f hfm _ hp
  exact cleanupAll_not_mem hfm hp

/-- Claim C4, witness: the photos filter rejects the gif and accepts the
png; the request succeeds and the artifact of the rejected gif is gone. -/
theorem c4_filter_amended_witness :
    (createStorageUploadMiddleware optsFilterFields
        (fun c => .ok (urlOfName c)) 0 reqPhotosCA
        ["/tmp/a", "/tmp/c"]).nextErr = none ∧
    "/tmp/c" ∉ (createStorageUploadMiddleware optsFilterFields
        (fun c => .ok (urlOfName c)) 0 reqPhotosCA ["/tmp/a", "/tmp/c"]).fs := by
  have h := c4_filter_amended optsFilterFields urlOfName 0 reqPhotosCA
    ["/tmp/a", "/tmp/c"] fcFilterPhotos (.many [exFileC, exFileA]) rfl rfl
  exact ⟨h.1, h.2.1 exFileC (by decide) (by decide) (by decide)⟩

/-- Claim C5, counterexample: in the multi-field path, when a later field
fails at the backend, the location of an earlier completed field is left
attached to req.uploadedFiles while the continuation receives the error,
so a partially-populated outcome map accompanies the fatal error. -/
theorem c5_atomicity_counterexample :
    (createStorageUploadMiddleware optsTwoFields failOnB 0 reqTwoFields
        ["/tmp/a", "/tmp/b"]).nextErr = some "backend down" ∧
    lookupField ((createStorageUploadMiddleware optsTwoFields failOnB 0
        reqTwoFields ["/tmp/a", "/tmp/b"]).req.uploadedFiles.getD [])
      "photos" = some (.str "url-fa.png") := by
  decide

/-- Claim C5 (amended): in the single-file and multiple-files
configurations the claim holds: whenever the continuation receives an
error, req.uploadedFiles is exactly its initialised value with no
location from this request attached.  The multi-field path violates the
claim (counterexample). -/
theorem c5_atomicity_amended (opts : StorageMiddlewareOptions)
    (backend : Backend) (now : Nat) (req : RequestLike) (fs : Fs) (e : String)
    (hf : opts.fields = none)
    (herr : (createStorageUploadMiddleware opts backend now req fs).nextErr =
      some e) :
    (createStorageUploadMiddleware opts backend now req fs).req.uploadedFiles =
      some (req.uploadedFiles.getD []) := by
  simp only [createStorageUploadMiddleware, runBody, hf] at herr ⊢
  rcases hb : singleOrMultipleBody opts backend ⟨initUploaded req, fs, []⟩
    with ⟨out, st₁⟩
  rw [hb] at herr
  have hd := singleOrMultipleBody_req opts backend ⟨initUploaded req, fs, []⟩
  rw [hb] at hd
  cases out
  · exact Option.noConfusion herr
  · rcases hd with h | h
    · simp at h
    · dsimp only
      dsimp only at h
      rw [h]
      exact initUploaded_uploadedFiles req
  · rcases hd with h | h
    · simp at h
    · dsimp only
      dsimp only at h
      rw [h]
      exact initUploaded_uploadedFiles req

/-- Claim C5, witness: a single-file run that fails on the filter carries
the error and an untouched (freshly initialised, empty) uploadedFiles. -/
theorem c5_atomicity_amended_witness :
    (createStorageUploadMiddleware optsRejectSingle okBackend 0 reqSingleA
        ["/tmp/a"]).req.uploadedFiles = some [] :=
  (c5_atomicity_amended optsRejectSingle okBackend 0 reqSingleA ["/tmp/a"]
    "File type not allowed" rfl (by decide)).trans (by decide)

/-- Claim C6, counterexample: with a global reject-all fileFilter and a
photos field override that specifies no filter, the multi-field path still
uploads the file; the property absent from the field override does not
take its value from the global defaults, contradicting the per-property
overlay. -/
theorem c6_overlay_counterexample :
    optsGlobalFilterFields.fileFilter.isSome = true ∧
    fcPlain.fileFilter.isNone = true ∧
    (createStorageUploadMiddleware optsGlobalFilterFields okBackend 0
        reqByPhotos ["/tmp/a"]).calls =
      [⟨"fa.png", "/tmp/a", "image/png"⟩] := by
  refine ⟨rfl, rfl, ?_⟩
  decide

/-- Claim C6 (amended): in the multi-field path the per-field
configuration is used exclusively: the whole middleware outcome depends
only on options.fields, so the global fileFilter, generateFileName,
limits, fieldName and multiple settings are never consulted, and a
property absent from a field override is simply absent rather than
inherited from the global defaults. -/
theorem c6_overlay_amended (o₁ o₂ : StorageMiddlewareOptions)
    (backend : Backend) (now : Nat) (req : RequestLike) (fs : Fs)
    (fc : FieldConfig) (rest : List FieldConfig)
    (h₁ : o₁.fields = some (fc :: rest)) (h₂ : o₂.fields = some (fc :: rest)) :
    createStorageUploadMiddleware o₁ backend now req fs =
      createStorageUploadMiddleware o₂ backend now req fs := by
  simp only [createStorageUploadMiddleware, runBody, catchCleanup, h₁, h₂]

/-- Claim C6, witness: the run with the global reject-all filter equals
the run without any global filter. -/
theorem c6_overlay_amended_witness :
    createStorageUploadMiddleware optsGlobalFilterFields okBackend 0
        reqByPhotos ["/tmp/a"] =
      createStorageUploadMiddleware optsFieldsPlain okBackend 0 reqByPhotos
        ["/tmp/a"] :=
  c6_overlay_amended optsGlobalFilterFields optsFieldsPlain okBackend 0
    reqByPhotos ["/tmp/a"] fcPlain [] rfl rfl

/-- Claim C7 (confirmed): within a multi-valued field the stored sequence
of locations is ordered by upload-start (arrival) order: in the
multiple-files fan-out the stored array is the in-order map over the
filtered files (Promise.all preserves input order regardless of
completion order), and in the sequential multi-field path the stored
array is the in-order map over the accepted files of the field. -/
theorem c7_result_order :
    (∀ (opts : StorageMiddlewareOptions) (urlOf : UploadCall → String)
       (now : Nat) (req : RequestLike) (fs : Fs),
       opts.fields = none → opts.multiple.getD false = true →
       opts.limits = none → 0 < (reqFilesList req.files).length →
       lookupField ((createStorageUploadMiddleware opts
           (fun c => .ok (urlOf c)) now req fs).req.uploadedFiles.getD [])
         (opts.fieldName.getD "file") =
         some (.arr ((filteredList opts (initUploaded req)).map
           (fun f => urlOf (closureCall opts.generateFileName
             (initUploaded req) f))))) ∧
    (∀ (opts : StorageMiddlewareOptions) (urlOf : UploadCall → String)
       (now : Nat) (req : RequestLike) (fs : Fs) (fc : FieldConfig)
       (entry : FieldEntry),
       opts.fields = some [fc] →
       filesForField req.files fc.fieldName = some entry →
       fc.maxCount ≠ some 1 →
       (acceptedFiles fc (initUploaded req) entry.toList).length ≠ 1 →
       lookupField ((createStorageUploadMiddleware opts
           (fun c => .ok (urlOf c)) now req fs).req.uploadedFiles.getD [])
         fc.fieldName =
         some (.arr ((acceptedFiles fc (initUploaded req) entry.toList).map
           (fun f => urlOf (fieldCall fc now (initUploaded req) f))))) := by
  constructor
  · intro opts urlOf now req fs hf hm hl hne
    rw [multiple_allOk opts urlOf now req fs hf hm hl hne]
    simp [setUploaded, lookupField_setField]
  · intro opts urlOf now req fs fc entry hf he hmc hlen
    rw [fields_single_allOk opts urlOf now req fs fc entry hf he]
    simp only [setUploaded, Option.getD_some, lookupField_setField]
    unfold storeValue
    rw [if_neg (by simp [List.length_map, hmc, hlen])]

/-- Claim C7, witness: two files in the multiple-files configuration yield
the URL array in arrival order. -/
theorem c7_result_order_witness :
    lookupField ((createStorageUploadMiddleware optsMulti
        (fun c => .ok (urlOfName c)) 0 reqMulti
        ["/tmp/a", "/tmp/b"]).req.uploadedFiles.getD []) "file" =
      some (.arr ["url-fa.png", "url-fb.pdf"]) := by
  have h := c7_result_order.1 optsMulti urlOfName 0 reqMulti
    ["/tmp/a", "/tmp/b"] rfl rfl rfl (by decide)
  exact h.trans (by decide)

/-- Claim C8, counterexample: with the folder "uploads/" (a destination
that already ends in a separator) the generated object key is
"uploads//7-a.png": the template inserts its own separator regardless of
the trailing one already present, producing a double separator, and the
single-separator key "uploads/7-a.png" the claim predicts is not the one
sent to the backend. -/
theorem c8_key_counterexample :
    fcFolder.folder = some "uploads/" ∧
    (createStorageUploadMiddleware optsFolder okBackend 7 reqByPhotos
        ["/tmp/a"]).calls =
      [⟨"uploads//7-a.png", "/tmp/a", "image/png"⟩] ∧
    (createStorageUploadMiddleware optsFolder okBackend 7 reqByPhotos
        ["/tmp/a"]).calls ≠
      [⟨"uploads/7-a.png", "/tmp/a", "image/png"⟩] := by
  refine ⟨rfl, ?_, ?_⟩ <;> decide

/-- Claim C8 (amended): with no custom generator and a truthy folder, the
object key of every accepted file of the field is literally
folder ++ "/" ++ timestamp ++ "-" ++ originalname, with no normalisation
of a trailing separator already present in the folder (so a folder ending
in "/" yields a double separator); and with no folder configured the key
is file.filename falling back to originalname, with no timestamp and no
destination part at all. -/
theorem c8_key_amended :
    (∀ (opts : StorageMiddlewareOptions) (urlOf : UploadCall → String)
       (now : Nat) (req : RequestLike) (fs : Fs) (fc : FieldConfig)
       (entry : FieldEntry) (d : String),
       opts.fields = some [fc] →
       filesForField req.files fc.fieldName = some entry →
       fc.generateFileName = none → fc.folder = some d → d ≠ "" →
       (createStorageUploadMiddleware opts (fun c => .ok (urlOf c)) now req
           fs).calls =
         (acceptedFiles fc (initUploaded req) entry.toList).map
           (fun f => ⟨d ++ "/" ++ toString now ++ "-" ++ f.originalname,
                      f.path, f.mimetype⟩)) ∧
    (∀ (opts : StorageMiddlewareOptions) (urlOf : UploadCall → String)
       (now : Nat) (req : RequestLike) (fs : Fs) (fc : FieldConfig)
       (entry : FieldEntry),
       opts.fields = some [fc] →
       filesForField req.files fc.fieldName = some entry →
       fc.generateFileName = none → fc.folder = none →
       (createStorageUploadMiddleware opts (fun c => .ok (urlOf c)) now req
           fs).calls =
         (acceptedFiles fc (initUploaded req) entry.toList).map
           (fun f => ⟨defaultFileName f, f.path, f.mimetype⟩)) := by
  constructor
  · intro opts urlOf now req fs fc entry d hf he hg hd hne
    rw [fields_single_allOk opts urlOf now req fs fc entry hf he]
    simp [fieldCall, fieldFileName, hg, hd, hne]
  · intro opts urlOf now req fs fc entry hf he hg hd
    rw [fields_single_allOk opts urlOf now req fs fc entry hf he]
    simp [fieldCall, fieldFileName, hg, hd]

/-- Claim C8, witness: with the trailing-separator folder the single
accepted file gets the double-separator key, and with no folder the same
file keeps its filename "fa.png" as the key, with no timestamp. -/
theorem c8_key_amended_witness :
    (createStorageUploadMiddleware optsFolder (fun c => .ok (urlOfName c)) 7
        reqByPhotos ["/tmp/a"]).calls =
      [⟨"uploads//7-a.png", "/tmp/a", "image/png"⟩] ∧
    (createStorageUploadMiddleware optsFieldsPlain
        (fun c => .ok (urlOfName c)) 0 reqByPhotos ["/tmp/a"]).calls =
      [⟨"fa.png", "/tmp/a", "image/png"⟩] := by
  constructor
  · have h := c8_key_amended.1 optsFolder urlOfName 7 reqByPhotos ["/tmp/a"]
      fcFolder (.one exFileA) "uploads/" rfl rfl rfl rfl (by decide)
    exact h.trans (by decide)
  · have h := c8_key_amended.2 optsFieldsPlain urlOfName 0 reqByPhotos
      ["/tmp/a"] fcPlain (.one exFileA) rfl rfl rfl rfl
    exact h.trans (by decide)

/-- Claim C9 (confirmed): in the multi-field path, a field with
maxCount == 1 that is present in the request but for which no upload
succeeds (every file rejected by the field filter) gets the scalar empty
string stored under req.uploadedFiles, and no backend call is issued. -/
theorem c9_empty_sentinel (opts : StorageMiddlewareOptions)
    (backend : Backend) (now : Nat) (req : RequestLike) (fs : Fs)
    (fc : FieldConfig) (entry : FieldEntry)
    (hf : opts.fields = some [fc]) (hmc : fc.maxCount = some 1)
    (he : filesForField req.files fc.fieldName = some entry)
    (hrej : ∀ f ∈ entry.toList,
      rejectsFile fc.fileFilter (initUploaded req) f = true) :
    lookupField ((createStorageUploadMiddleware opts backend now req
        fs).req.uploadedFiles.getD []) fc.fieldName = some (.str "") ∧
    (createStorageUploadMiddleware opts backend now req fs).calls = [] := by
  rw [fields_single_rejected opts backend now req fs fc entry hf he hrej]
  constructor
  · simp [setUploaded, lookupField_setField, storeValue, hmc]
  · rfl

/-- Claim C9, witness: the reject-all photos field with one attached file
stores the scalar empty string. -/
theorem c9_empty_sentinel_witness :
    lookupField ((createStorageUploadMiddleware optsRejectFields okBackend 0
        reqByPhotos ["/tmp/a"]).req.uploadedFiles.getD []) "photos" =
      some (.str "") :=
  (c9_empty_sentinel optsRejectFields okBackend 0 reqByPhotos ["/tmp/a"]
    fcRejectAll (.one exFileA) rfl rfl rfl (by decide)).1

/-- Claim C10 (confirmed): in single-field mode with no file attached
(req.file absent in single mode, or req.files empty in multiple mode) the
middleware succeeds: the continuation receives no error,
req.uploadedFiles is the initialised object (empty when it was absent)
with no entry added, no backend call is issued, and the filesystem is
untouched. -/
theorem c10_no_file_success (opts : StorageMiddlewareOptions)
    (backend : Backend) (now : Nat) (req : RequestLike) (fs : Fs)
    (hf : opts.fields = none)
    (hnone : (opts.multiple.getD false = false ∧ req.file = none) ∨
             (opts.multiple.getD false = true ∧ reqFilesList req.files = [])) :
    (createStorageUploadMiddleware opts backend now req fs).nextErr = none ∧
    (createStorageUploadMiddleware opts backend now req fs).req.uploadedFiles =
      some (req.uploadedFiles.getD []) ∧
    (createStorageUploadMiddleware opts backend now req fs).calls = [] ∧
    (createStorageUploadMiddleware opts backend now req fs).fs = fs := by
  rcases hnone with ⟨hm, hfile⟩ | ⟨hm, hempty⟩
  · have hfile₂ : (initUploaded req).file = none := by
      rw [initUploaded_file]; exact hfile
    simp only [createStorageUploadMiddleware, runBody, hf, singleOrMultipleBody,
      hm, Bool.false_eq_true, if_false, runSingleBody, hfile₂]
    simp [initUploaded_uploadedFiles]
  · have hempty₂ : reqFilesList (initUploaded req).files = [] := by
      rw [initUploaded_files]; exact hempty
    simp only [createStorageUploadMiddleware, runBody, hf, singleOrMultipleBody,
      hm, if_true, runMultipleBody, hempty₂, List.length_nil,
      lt_self_iff_false, if_false]
    simp [initUploaded_uploadedFiles]

/-- Claim C10, witness: an empty request in the default single-file
configuration succeeds with an initialised empty uploadedFiles. -/
theorem c10_no_file_success_witness :
    (createStorageUploadMiddleware baseOpts okBackend 0 reqEmpty
        ["/x"]).nextErr = none ∧
    (createStorageUploadMiddleware baseOpts okBackend 0 reqEmpty
        ["/x"]).req.uploadedFiles = some [] := by
  have h := c10_no_file_success baseOpts okBackend 0 reqEmpty ["/x"] rfl
    (Or.inl ⟨rfl, rfl⟩)
  exact ⟨h.1, h.2.1⟩
